import Mathlib

/-!
# Verification of the qlbm geometry-to-circuit compiler core

A shallow embedding of the classical core of the `qlbm` quantum lattice
Boltzmann circuit compiler: the grid/lattice model, the obstacle geometry
model, the reflection case classifier, and the boundary circuit generator.
The Python sources of the `qlbm` package itself are not part of this
distribution (only documentation, notebooks and build files are), so each
definition is modelled from the specification's description of the
corresponding component, as indicated in its doc comment.
-/

namespace Qlbm

/-! ## Boundary condition kinds and geometry entries -/

/-- Modelled from the spec: boundary condition kind of an obstacle face,
`specular` or `bounceback` (the only supported kinds). -/
inductive BoundaryKind where
  | specular
  | bounceback
deriving DecidableEq, Repr

/-- Modelled from the spec: the string names accepted for boundary
conditions in the user specification. -/
def kindOfString : String → Option BoundaryKind
  | "specular" => some BoundaryKind.specular
  | "bounceback" => some BoundaryKind.bounceback
  | _ => none

/-- Modelled from the spec: serialization of a boundary kind back to its
specification string. -/
def stringOfKind : BoundaryKind → String
  | BoundaryKind.specular => "specular"
  | BoundaryKind.bounceback => "bounceback"

/-- Modelled from the spec: one geometry entry of the user specification,
`{"shape": "cuboid"|"circle", "<axis>": [lo, hi], ..., "boundary": ...}`.
Bounds are the per-axis inclusive integer ranges of the bounding box
(circles, supported only in 2D, are carried by their bounding box here;
their center+radius form plays no role in the verified claims). -/
structure GeometryEntry where
  shape : String
  bounds : List (Nat × Nat)
  boundary : String
deriving DecidableEq, Repr

/-- Modelled from the spec: a parsed obstacle (`Block`): its axis-aligned
bounding box as inclusive per-axis ranges, and the boundary-condition kind
of each of its two faces per axis (low face, high face).  Parsing a user
entry assigns the entry's single declared kind to every face; the
classifier itself handles per-face kinds, as required by the spec's
corner tie-break policy. -/
structure Block where
  bounds : List (Nat × Nat)
  kinds : List (BoundaryKind × BoundaryKind)
deriving DecidableEq, Repr

/-- The default (empty) block used for out-of-range list accesses. -/
def emptyBlock : Block := ⟨[], []⟩

/-- Modelled from the spec: conversion of a validated geometry entry into a
`Block`, assigning the declared boundary kind to every face. -/
def toBlock (e : GeometryEntry) : Block :=
  let k := (kindOfString e.boundary).getD BoundaryKind.specular
  ⟨e.bounds, e.bounds.map (fun _ => (k, k))⟩

/-! ## Geometry validation -/

/-- Modelled from the spec: supported shapes are `cuboid` and `circle` for
2D grids, and only `cuboid` for 3D grids. -/
def shapeSupported (numDims : Nat) (shape : String) : Bool :=
  (shape == "cuboid" && (numDims == 2 || numDims == 3)) ||
  (shape == "circle" && numDims == 2)

/-- Modelled from the spec: a boundary-condition string is supported when
it names one of the two supported kinds. -/
def kindSupported (s : String) : Bool :=
  (kindOfString s).isSome

/-- Modelled from the spec: the obstacle's bounds must be well-formed
inclusive ranges lying within `[0, dim[axis])` on every axis of the grid. -/
def boundsOk (ds : List Nat) (bnds : List (Nat × Nat)) : Bool :=
  bnds.length == ds.length &&
  (List.range ds.length).all fun k =>
    decide ((bnds.getD k (0, 0)).1 ≤ (bnds.getD k (0, 0)).2) &&
    decide ((bnds.getD k (0, 0)).2 < ds.getD k 0)

/-- Modelled from the spec: the number of grid points strictly between the
projections of two ranges onto one axis (`0` when the projections touch or
overlap). -/
def axisGap (lo hi lo' hi' : Nat) : Nat :=
  if hi < lo' then lo' - hi - 1
  else if hi' < lo then lo - hi' - 1
  else 0

/-- Modelled from the spec: two obstacles satisfy the minimum-separation
requirement when they are at least 2 grid points apart in every
dimension. -/
def sepOk (b1 b2 : List (Nat × Nat)) : Bool :=
  (List.range b1.length).all fun k =>
    decide (2 ≤ axisGap (b1.getD k (0, 0)).1 (b1.getD k (0, 0)).2
      (b2.getD k (0, 0)).1 (b2.getD k (0, 0)).2)

/-- Modelled from the spec: per-entry validation gate: supported shape,
bounds within the grid, supported boundary kind. -/
def entryOk (ds : List Nat) (e : GeometryEntry) : Bool :=
  shapeSupported ds.length e.shape && boundsOk ds e.bounds && kindSupported e.boundary

/-- The default geometry entry used for out-of-range list accesses. -/
def emptyEntry : GeometryEntry := ⟨"", [], ""⟩

/-- Modelled from the spec: pairwise minimum-separation validation over the
whole obstacle list. -/
def pairwiseSepOk (es : List GeometryEntry) : Bool :=
  (List.range es.length).all fun i =>
    (List.range es.length).all fun j =>
      i == j || sepOk (es.getD i emptyEntry).bounds (es.getD j emptyEntry).bounds

/-- Modelled from the spec: the whole geometry validation gate. -/
def geomOk (ds : List Nat) (es : List GeometryEntry) : Bool :=
  es.all (entryOk ds) && pairwiseSepOk es

/-- Modelled from the spec: the error raised when obstacle validation
fails (`GeometryError`); it reports the offending constraint. -/
structure GeometryError where
  message : String
deriving DecidableEq, Repr

/-- Modelled from the spec: obstacle parsing.  A hard validation gate: the
full entry list is parsed into `Block`s exactly when every entry and every
pair passes validation; any violation raises a `GeometryError` and no
partial result is produced. -/
def parseGeometry (ds : List Nat) (es : List GeometryEntry) :
    Except GeometryError (List Block) :=
  if geomOk ds es then Except.ok (es.map toBlock)
  else Except.error ⟨"geometry validation failed"⟩

/-- Modelled from the spec: parsing a single obstacle entry through the
geometry model (the per-obstacle part of the validation gate). -/
def parseEntry (ds : List Nat) (e : GeometryEntry) : Except GeometryError Block :=
  if entryOk ds e then Except.ok (toBlock e)
  else Except.error ⟨"geometry validation failed"⟩

/-- Modelled from the spec: serializing an obstacle's bounding box back to
a geometry entry (the export interface of the geometry model). -/
def serializeBlock (b : Block) : GeometryEntry :=
  ⟨"cuboid", b.bounds, stringOfKind (b.kinds.getD 0 (BoundaryKind.specular, BoundaryKind.specular)).1⟩

/-! ## The reflection case classifier

Modelled from the spec, section 4.3: for every obstacle and every axis
combination the classifier determines which reflection categories apply at
which grid coordinates, producing a minimal non-overlapping set of
reflection structures covering the obstacle's exposed boundary.  A
structure is identified by the per-axis status of the coordinates it
covers: pinned at the low face, pinned at the high face, or strictly in
the interior of the axis range; a degenerate axis (`lo = hi`) pins the
coordinate at its unique value, which lies on both faces at once. -/

/-- Per-axis position category of a reflection structure. -/
inductive FaceStatus where
  | atLo
  | atHi
  | middle
  | both
deriving DecidableEq, Repr

/-- Modelled from the spec: the per-axis statuses available for an axis
range: the two faces and the interior for a proper range, and the single
collapsed status for a degenerate range. -/
def axisStatuses (lo hi : Nat) : List FaceStatus :=
  if lo == hi then [FaceStatus.both]
  else [FaceStatus.atLo, FaceStatus.atHi, FaceStatus.middle]

/-- Whether a coordinate value on one axis matches a face status for the
axis range `[lo, hi]`. -/
def statusMatch : FaceStatus → Nat → Nat → Nat → Bool
  | FaceStatus.atLo, lo, _, x => x == lo
  | FaceStatus.atHi, _, hi, x => x == hi
  | FaceStatus.both, lo, _, x => x == lo
  | FaceStatus.middle, lo, hi, x => decide (lo < x) && decide (x < hi)

/-- All combinations of per-axis statuses of an obstacle's bounds (the
cartesian product of `axisStatuses` over the axes). -/
def allPatterns : List (Nat × Nat) → List (List FaceStatus)
  | [] => [[]]
  | (lo, hi) :: rest =>
    (axisStatuses lo hi).flatMap fun s => (allPatterns rest).map fun p => s :: p

/-- A pattern describes boundary coordinates when at least one axis is
pinned to a face. -/
def boundaryPattern (p : List FaceStatus) : Bool :=
  p.any fun s => s != FaceStatus.middle

/-- Whether the exterior cell adjacent to a face (coordinate `hi + 1`, or
`lo - 1` when it exists) lies inside the range `[lo', hi']`. -/
def extCellInside (hiSide : Bool) (lo hi lo' hi' : Nat) : Bool :=
  if hiSide then decide (lo' ≤ hi + 1) && decide (hi + 1 ≤ hi')
  else decide (1 ≤ lo) && decide (lo' ≤ lo - 1) && decide (lo - 1 ≤ hi')

/-- Modelled from the spec: whether block `b'` shields the face of block
`b` on axis `j` (`hiSide` selects the high face): `b'` occupies the whole
slab of exterior cells adjacent to that face. -/
def shieldsFace (b' b : Block) (j : Nat) (hiSide : Bool) : Bool :=
  decide (j < b.bounds.length) &&
  b'.bounds.length == b.bounds.length &&
  (List.range b.bounds.length).all fun k =>
    if k == j then
      extCellInside hiSide (b.bounds.getD k (0, 0)).1 (b.bounds.getD k (0, 0)).2
        (b'.bounds.getD k (0, 0)).1 (b'.bounds.getD k (0, 0)).2
    else
      decide ((b'.bounds.getD k (0, 0)).1 ≤ (b.bounds.getD k (0, 0)).1) &&
      decide ((b.bounds.getD k (0, 0)).2 ≤ (b'.bounds.getD k (0, 0)).2)

/-- Modelled from the spec: a face of the obstacle at index `i` is
shielded when another obstacle occupies the adjacent exterior cells;
shielded faces must not receive reflection circuits. -/
def faceShielded (bs : List Block) (i j : Nat) (hiSide : Bool) : Bool :=
  (List.range bs.length).any fun i' =>
    i' != i && shieldsFace (bs.getD i' emptyBlock) (bs.getD i emptyBlock) j hiSide

/-- Whether the face(s) pinned by one axis status of a pattern are all
unshielded. -/
def statusUnshielded (bs : List Block) (i j : Nat) : FaceStatus → Bool
  | FaceStatus.middle => true
  | FaceStatus.atLo => !faceShielded bs i j false
  | FaceStatus.atHi => !faceShielded bs i j true
  | FaceStatus.both => !faceShielded bs i j false && !faceShielded bs i j true

/-- A pattern is emitted only when every face it pins is unshielded. -/
def patternUnshielded (bs : List Block) (i : Nat) (p : List FaceStatus) : Bool :=
  (List.range p.length).all fun j => statusUnshielded bs i j (p.getD j FaceStatus.middle)

/-- Modelled from the spec: the direction-specific reflection cases of a
structure: one case per velocity direction that reaches it, i.e. one per
pinned face, carrying the face's boundary-condition kind.  A case is
`(axis, side, kind)` with `side = true` for the high face. -/
def patternCases (p : List FaceStatus) (kinds : List (BoundaryKind × BoundaryKind)) :
    List (Nat × Bool × BoundaryKind) :=
  (List.range p.length).flatMap fun j =>
    match p.getD j FaceStatus.middle with
    | FaceStatus.middle => []
    | FaceStatus.atLo =>
      [(j, false, (kinds.getD j (BoundaryKind.specular, BoundaryKind.specular)).1)]
    | FaceStatus.atHi =>
      [(j, true, (kinds.getD j (BoundaryKind.specular, BoundaryKind.specular)).2)]
    | FaceStatus.both =>
      [(j, false, (kinds.getD j (BoundaryKind.specular, BoundaryKind.specular)).1),
       (j, true, (kinds.getD j (BoundaryKind.specular, BoundaryKind.specular)).2)]

/-- Modelled from the spec: a classified reflection structure, carrying
enough information (obstacle index, axis ranges, per-axis statuses and
direction-specific boundary cases) for the boundary circuit generator to
produce a circuit without re-deriving geometry. -/
structure ReflStruct where
  blockIdx : Nat
  bounds : List (Nat × Nat)
  pattern : List FaceStatus
  cases : List (Nat × Bool × BoundaryKind)
deriving DecidableEq, Repr

/-- The three reflection structure categories of the spec's data model:
`ReflectionWall`, `ReflectionPoint` and `ReflectionResetEdge`. -/
inductive StructKind where
  | wall
  | point
  | resetEdge
deriving DecidableEq, Repr

/-- Modelled from the spec: the category of a structure: a single pinned
axis is a wall (a face of the bounding box), all axes pinned is a point (a
corner), and anything in between is a reset edge (3D only, where two walls
meet). -/
def kindOfPattern (p : List FaceStatus) : StructKind :=
  let e := p.countP fun s => s != FaceStatus.middle
  if e == p.length then StructKind.point
  else if e == 1 then StructKind.wall
  else StructKind.resetEdge

/-- The structure emitted for one pattern of one obstacle. -/
def mkStruct (i : Nat) (b : Block) (p : List FaceStatus) : ReflStruct :=
  ⟨i, b.bounds, p, patternCases p b.kinds⟩

/-- Modelled from the spec: classification of a single obstacle: one
structure per combination of face statuses that touches the boundary and
whose pinned faces are all unshielded. -/
def classifyBlock (bs : List Block) (i : Nat) (b : Block) : List ReflStruct :=
  ((allPatterns b.bounds).filter fun p =>
    boundaryPattern p && patternUnshielded bs i p).map (mkStruct i b)

/-- Modelled from the spec: classification of the whole obstacle set. -/
def classifyAll (bs : List Block) : List ReflStruct :=
  (List.range bs.length).flatMap fun i => classifyBlock bs i (bs.getD i emptyBlock)

/-- The set of grid coordinates covered by a pattern over given bounds. -/
def coversAt (p : List FaceStatus) (bounds : List (Nat × Nat)) (c : List Nat) : Bool :=
  p.length == bounds.length && c.length == bounds.length &&
  (List.range bounds.length).all fun k =>
    statusMatch (p.getD k FaceStatus.middle) (bounds.getD k (0, 0)).1
      (bounds.getD k (0, 0)).2 (c.getD k 0)

/-- The set of grid coordinates covered by a reflection structure. -/
def covers (s : ReflStruct) (c : List Nat) : Bool :=
  coversAt s.pattern s.bounds c

/-- Whether a coordinate lies inside an obstacle's bounding box. -/
def inBlock (b : Block) (c : List Nat) : Bool :=
  c.length == b.bounds.length &&
  (List.range b.bounds.length).all fun k =>
    decide ((b.bounds.getD k (0, 0)).1 ≤ c.getD k 0) &&
    decide (c.getD k 0 ≤ (b.bounds.getD k (0, 0)).2)

/-- Whether a coordinate lies on the boundary of an obstacle's bounding
box (inside the box, with some axis at a face). -/
def onBoundary (b : Block) (c : List Nat) : Bool :=
  inBlock b c &&
  (List.range b.bounds.length).any fun k =>
    c.getD k 0 == (b.bounds.getD k (0, 0)).1 || c.getD k 0 == (b.bounds.getD k (0, 0)).2

/-- Modelled from the spec: a coordinate on the exposed boundary of the
obstacle at index `i`: a boundary coordinate all of whose incident faces
are unshielded. -/
def exposedCell (bs : List Block) (i : Nat) (c : List Nat) : Bool :=
  onBoundary (bs.getD i emptyBlock) c &&
  (List.range (bs.getD i emptyBlock).bounds.length).all fun j =>
    (c.getD j 0 != ((bs.getD i emptyBlock).bounds.getD j (0, 0)).1 ||
      !faceShielded bs i j false) &&
    (c.getD j 0 != ((bs.getD i emptyBlock).bounds.getD j (0, 0)).2 ||
      !faceShielded bs i j true)

/-- Modelled from the spec: the exposed-boundary coordinates of all
obstacles. -/
def exposedBoundaryAll (bs : List Block) (c : List Nat) : Bool :=
  (List.range bs.length).any fun i => exposedCell bs i c

/-- The union of the coordinates covered by all emitted structures. -/
def coveredAll (bs : List Block) (c : List Nat) : Bool :=
  (classifyAll bs).any fun s => covers s c

/-- A coordinate on a given face (axis and side) of an obstacle. -/
def faceCell (b : Block) (j : Nat) (side : Bool) (c : List Nat) : Bool :=
  inBlock b c &&
  c.getD j 0 == (if side then (b.bounds.getD j (0, 0)).2 else (b.bounds.getD j (0, 0)).1)

/-! ## The grid/lattice model

Modelled from the spec, section 4.1: given `{dim, velocities}` the lattice
computes the qubit partitioning into named registers and fails with a
`ConfigurationError` when a dimension or velocity count is not a power of
two or the axis keys of `dim` and `velocities` disagree. -/

/-- Fuel-driven halving test underlying `isPow2` (structural recursion on
the fuel so that it evaluates by kernel reduction). -/
def isPow2Aux : Nat → Nat → Bool
  | 0, _ => false
  | _ + 1, 0 => false
  | _ + 1, 1 => true
  | fuel + 1, n + 2 => (n + 2) % 2 == 0 && isPow2Aux fuel ((n + 2) / 2)

/-- Whether a natural number is a power of two (the lattice model's
validity test for grid dimensions and velocity counts). -/
def isPow2 (n : Nat) : Bool := isPow2Aux n n

/-- Modelled from the spec: the user's lattice specification: per-axis grid
dimensions and per-axis velocity counts, keyed by axis name. -/
structure LatticeSpec where
  dim : List (String × Nat)
  velocities : List (String × Nat)
deriving DecidableEq, Repr

/-- Modelled from the spec: the error raised when the grid/velocity
specification violates the power-of-two or axis-consistency constraints. -/
structure ConfigurationError where
  message : String
deriving DecidableEq, Repr

/-- Modelled from the spec: a constructed lattice: axis names, grid sizes
and velocity counts, from which the whole qubit layout is derived. -/
structure Lattice where
  axes : List String
  dims : List Nat
  vels : List Nat
deriving DecidableEq, Repr

/-- Modelled from the spec: lattice construction: the validation gate
followed by the (purely derived) qubit layout.  Nothing is produced on a
`ConfigurationError`. -/
def parseLattice (s : LatticeSpec) : Except ConfigurationError Lattice :=
  if s.dim.map Prod.fst == s.velocities.map Prod.fst &&
      (s.dim.all fun p => isPow2 p.2) && (s.velocities.all fun p => isPow2 p.2) then
    Except.ok ⟨s.dim.map Prod.fst, s.dim.map Prod.snd, s.velocities.map Prod.snd⟩
  else
    Except.error ⟨"lattice specification validation failed"⟩

/-- Modelled from the spec: number of grid-position qubits per axis
(`log2` of the dimension). -/
def gridQubitCounts (l : Lattice) : List Nat := l.dims.map Nat.log2

/-- Modelled from the spec: number of velocity qubits per axis (`log2` of
the velocity count). -/
def velQubitCounts (l : Lattice) : List Nat := l.vels.map Nat.log2

/-- Total grid-position qubits of the lattice. -/
def numGridQubits (l : Lattice) : Nat := (gridQubitCounts l).sum

/-- Total velocity qubits of the lattice. -/
def numVelQubits (l : Lattice) : Nat := (velQubitCounts l).sum

/-- Modelled from the spec: ancilla qubits (one per axis in this model). -/
def numAncillaQubits (l : Lattice) : Nat := l.axes.length

/-- Total number of qubits of the lattice. -/
def numTotalQubits (l : Lattice) : Nat :=
  numGridQubits l + numVelQubits l + numAncillaQubits l

/-- Modelled from the spec: the register partitioning: named sizes of the
per-axis grid registers, per-axis velocity registers and the ancilla
register, in a fixed order. -/
def registerSizes (l : Lattice) : List (String × Nat) :=
  (l.axes.zip (gridQubitCounts l)).map (fun p => ("grid_" ++ p.1, p.2)) ++
  (l.axes.zip (velQubitCounts l)).map (fun p => ("vel_" ++ p.1, p.2)) ++
  [("ancilla", numAncillaQubits l)]

/-- Modelled from the spec: the concrete qubit indices of the grid
register of one axis (consecutive indices, axes laid out in order). -/
def gridQubitIndices (l : Lattice) (i : Nat) : List Nat :=
  List.range' ((gridQubitCounts l).take i).sum ((gridQubitCounts l).getD i 0)

/-- Modelled from the spec: the concrete qubit indices of the velocity
register of one axis (after all grid registers). -/
def velQubitIndices (l : Lattice) (i : Nat) : List Nat :=
  List.range' (numGridQubits l + ((velQubitCounts l).take i).sum)
    ((velQubitCounts l).getD i 0)

/-- Modelled from the spec: the concrete qubit indices of the ancilla
register (after all grid and velocity registers). -/
def ancillaQubitIndices (l : Lattice) : List Nat :=
  List.range' (numGridQubits l + numVelQubits l) (numAncillaQubits l)

/-! ## The boundary circuit generator

Modelled from the spec, section 4.4: a pure function of (reflection
structure, qubit layout) producing a composable circuit fragment:
comparator sub-circuits against the wall coordinate followed by
conditional flips of velocity qubits (all of them for bounceback, the
normal component only for specular). -/

/-- The gate vocabulary of the emitted circuit fragments. -/
inductive Gate where
  | comparator (qubits : List Nat) (value : Nat)
  | flipVelocity (qubit : Nat)
deriving DecidableEq, Repr

/-- The wall coordinate of a structure on a given axis and side. -/
def wallCoord (s : ReflStruct) (j : Nat) (side : Bool) : Nat :=
  if side then (s.bounds.getD j (0, 0)).2 else (s.bounds.getD j (0, 0)).1

/-- Modelled from the spec: the sub-circuit of one direction-specific
case: a comparator on the grid qubits of the struck axis against the wall
coordinate, then conditional velocity flips — the full velocity register
for bounceback, only the normal component for specular. -/
def fragmentForCase (l : Lattice) (s : ReflStruct) :
    Nat × Bool × BoundaryKind → List Gate
  | (j, side, BoundaryKind.bounceback) =>
    Gate.comparator (gridQubitIndices l j) (wallCoord s j side) ::
      (List.range (numVelQubits l)).map fun q => Gate.flipVelocity (numGridQubits l + q)
  | (j, side, BoundaryKind.specular) =>
    [Gate.comparator (gridQubitIndices l j) (wallCoord s j side),
     Gate.flipVelocity ((velQubitIndices l j).headD 0)]

/-- Modelled from the spec: the circuit fragment emitted for one
reflection structure: the concatenation of its per-direction cases. -/
def fragmentFor (l : Lattice) (s : ReflStruct) : List Gate :=
  s.cases.flatMap (fragmentForCase l s)

/-- The read-only environment the generator runs against: the lattice, the
obstacles, and the classified reflection structures. -/
structure GenState where
  lattice : Lattice
  blocks : List Block
  structures : List ReflStruct
deriving DecidableEq, Repr

/-- Modelled from the spec: running the boundary circuit generator over
all classified structures.  The generator emits one fragment per structure
and returns its environment; it holds no mutable state. -/
def runGenerator (st : GenState) : List (List Gate) × GenState :=
  (st.structures.map (fragmentFor st.lattice), st)

/-- Modelled from the spec: the reflection circuits of one obstacle: each
emitted structure of the obstacle paired with its generated fragment. -/
def boundaryCircuits (l : Lattice) (bs : List Block) (i : Nat) :
    List (ReflStruct × List Gate) :=
  (classifyBlock bs i (bs.getD i emptyBlock)).map fun s => (s, fragmentFor l s)

/-! ## The space-time (STQLBM/QLGA) variant

Modelled from the spec and the documentation's warning: the space-time
algorithm is based on standard `D_dQ_q` discretizations, but the current
implementation only supports `D1Q2`, `D1Q3` and `D2Q4`, and only for one
time step; multiple steps are obtained through the external
reinitialization mechanism. -/

/-- Modelled from the spec: the discretization request of a space-time
specification: number of spatial dimensions and number of discrete
velocity channels. -/
structure STSpec where
  numDims : Nat
  numVelChannels : Nat
deriving DecidableEq, Repr

/-- Modelled from the spec: the discretizations the space-time variant
supports. -/
def supportedSTDiscretizations : List (Nat × Nat) := [(1, 2), (1, 3), (2, 4)]

/-- Modelled from the spec: a generated space-time circuit, recording its
discretization and the number of time steps it implements. -/
structure STCircuit where
  discretization : Nat × Nat
  steps : Nat
deriving DecidableEq, Repr

/-- Modelled from the spec: building the space-time circuit: any
discretization other than the supported ones is rejected, and the
generated circuit always implements exactly one time step. -/
def buildSpaceTime (s : STSpec) : Except ConfigurationError STCircuit :=
  if (s.numDims, s.numVelChannels) ∈ supportedSTDiscretizations then
    Except.ok ⟨(s.numDims, s.numVelChannels), 1⟩
  else
    Except.error ⟨"unsupported space-time discretization"⟩

/-- Modelled from the spec: simulating several time steps through the
external reinitialization mechanism: one freshly re-prepared single-step
circuit per step, never a multi-step circuit. -/
def reinitMultiStep (s : STSpec) (n : Nat) :
    Except ConfigurationError (List STCircuit) :=
  match buildSpaceTime s with
  | Except.ok c => Except.ok (List.replicate n c)
  | Except.error e => Except.error e

/-! ## Auxiliary definitions used by the statements and proofs -/

/-- A block has well-formed bounds: `lo ≤ hi` on every axis. -/
def blockWF (b : Block) : Bool :=
  (List.range b.bounds.length).all fun k =>
    decide ((b.bounds.getD k (0, 0)).1 ≤ (b.bounds.getD k (0, 0)).2)

/-- The unique face status of a coordinate value on one axis. -/
def canonicalStatus (lo hi x : Nat) : FaceStatus :=
  if lo == hi then FaceStatus.both
  else if x == lo then FaceStatus.atLo
  else if x == hi then FaceStatus.atHi
  else FaceStatus.middle

/-- The unique pattern whose coverage contains a given coordinate. -/
def canonicalPattern (bounds : List (Nat × Nat)) (c : List Nat) : List FaceStatus :=
  (List.range bounds.length).map fun k =>
    canonicalStatus (bounds.getD k (0, 0)).1 (bounds.getD k (0, 0)).2 (c.getD k 0)

/-- The face status pinning one side of an axis (`true` = high face). -/
def sideStatus (side : Bool) : FaceStatus :=
  if side then FaceStatus.atHi else FaceStatus.atLo

/-- The boundary kind of one side of an axis' face pair. -/
def sideKind (k : BoundaryKind × BoundaryKind) (side : Bool) : BoundaryKind :=
  if side then k.2 else k.1

/-- The coordinate of one side of an axis range. -/
def sideCoord (lo hi : Nat) (side : Bool) : Nat :=
  if side then hi else lo

/-! ## Basic list indexing lemmas -/

lemma getD_eq_getElem {α : Type} (l : List α) (d : α) {k : Nat} (h : k < l.length) :
    l.getD k d = l[k] := by
  rw [List.getD_eq_getElem?_getD, List.getElem?_eq_getElem h, Option.getD_some]

lemma all_range_iff (n : Nat) (f : Nat → Bool) :
    (List.range n).all f = true ↔ ∀ k, k < n → f k = true := by
  simp [List.all_eq_true, List.mem_range]

lemma any_range_iff (n : Nat) (f : Nat → Bool) :
    (List.range n).any f = true ↔ ∃ k, k < n ∧ f k = true := by
  simp [List.any_eq_true, List.mem_range]

lemma ne_lists_exists_getD {α : Type} (l l' : List α) (d : α)
    (hlen : l.length = l'.length) (h : l ≠ l') :
    ∃ k, k < l.length ∧ l.getD k d ≠ l'.getD k d := by
  by_contra hc
  push_neg at hc
  refine h (List.ext_getElem hlen fun n h1 h2 => ?_)
  have := hc n h1
  rwa [getD_eq_getElem l d h1, getD_eq_getElem l' d h2] at this

lemma getD_map_of_lt {α β : Type} (l : List α) (f : α → β) (d : α) (d' : β) {k : Nat}
    (h : k < l.length) : (l.map f).getD k d' = f (l.getD k d) := by
  rw [getD_eq_getElem _ _ (by simpa using h), getD_eq_getElem _ _ h, List.getElem_map]

lemma getD_mem {α : Type} (l : List α) (d : α) {k : Nat} (h : k < l.length) :
    l.getD k d ∈ l := by
  rw [getD_eq_getElem _ _ h]
  exact List.getElem_mem h

/-! ## Pattern and coverage lemmas -/

lemma mem_allPatterns {bounds : List (Nat × Nat)} {p : List FaceStatus} :
    p ∈ allPatterns bounds ↔
      p.length = bounds.length ∧
      ∀ k, k < bounds.length →
        p.getD k FaceStatus.middle ∈
          axisStatuses (bounds.getD k (0, 0)).1 (bounds.getD k (0, 0)).2 := by
  induction bounds generalizing p with
  | nil =>
    simp only [allPatterns, List.mem_singleton, List.length_nil]
    constructor
    · rintro rfl
      exact ⟨rfl, by omega⟩
    · rintro ⟨hlen, _⟩
      exact List.length_eq_zero.1 hlen
  | cons hd tl ih =>
    obtain ⟨lo, hi⟩ := hd
    cases p with
    | nil =>
      simp only [allPatterns, List.mem_flatMap, List.mem_map]
      constructor
      · rintro ⟨s, _, q, _, hq⟩
        exact absurd hq (by simp)
      · rintro ⟨hlen, _⟩
        simp at hlen
    | cons s q =>
      simp only [allPatterns, List.mem_flatMap, List.mem_map]
      constructor
      · rintro ⟨s', hs', q', hq', heq⟩
        have hs : s' = s := by injection heq
        have hq : q' = q := by injection heq
        subst hs; subst hq
        obtain ⟨hlen, hax⟩ := ih.1 hq'
        refine ⟨by simp [hlen], ?_⟩
        intro k hk
        cases k with
        | zero => simpa using hs'
        | succ k =>
          simp only [List.getD_cons_succ]
          exact hax k (by simpa using hk)
      · rintro ⟨hlen, hax⟩
        refine ⟨s, ?_, q, ih.2 ⟨by simpa using hlen, ?_⟩, rfl⟩
        · simpa using hax 0 (by simp)
        · intro k hk
          simpa using hax (k + 1) (by simpa using Nat.succ_lt_succ hk)

lemma axisStatuses_degenerate {lo hi : Nat} (h : lo = hi) :
    axisStatuses lo hi = [FaceStatus.both] := by
  simp only [axisStatuses, beq_iff_eq, if_pos h]

lemma axisStatuses_proper {lo hi : Nat} (h : lo ≠ hi) :
    axisStatuses lo hi = [FaceStatus.atLo, FaceStatus.atHi, FaceStatus.middle] := by
  simp only [axisStatuses, beq_iff_eq, if_neg h]

lemma statusMatch_bounds {s : FaceStatus} {lo hi x : Nat} (hwf : lo ≤ hi)
    (h : statusMatch s lo hi x = true) : lo ≤ x ∧ x ≤ hi := by
  cases s <;> simp [statusMatch] at h <;> omega

lemma statusMatch_exclusive {lo hi x : Nat} {s t : FaceStatus}
    (hs : s ∈ axisStatuses lo hi) (ht : t ∈ axisStatuses lo hi) (hne : s ≠ t)
    (hms : statusMatch s lo hi x = true) (hmt : statusMatch t lo hi x = true) :
    False := by
  by_cases h : lo = hi
  · subst h
    simp [axisStatuses] at hs ht
    subst hs; subst ht
    exact hne rfl
  · have hb : (lo == hi) = false := beq_eq_false_iff_ne.2 h
    simp only [axisStatuses, hb, Bool.false_eq_true, if_false, List.mem_cons,
      List.mem_singleton, List.not_mem_nil, or_false] at hs ht
    rcases hs with rfl | rfl | rfl <;> rcases ht with rfl | rfl | rfl <;>
      first
        | exact hne rfl
        | (simp only [statusMatch, beq_iff_eq, Bool.and_eq_true,
            decide_eq_true_eq] at hms hmt; omega)

lemma coversAt_iff {p : List FaceStatus} {bounds : List (Nat × Nat)} {c : List Nat} :
    coversAt p bounds c = true ↔
      p.length = bounds.length ∧ c.length = bounds.length ∧
      ∀ k, k < bounds.length →
        statusMatch (p.getD k FaceStatus.middle) (bounds.getD k (0, 0)).1
          (bounds.getD k (0, 0)).2 (c.getD k 0) = true := by
  simp [coversAt, List.all_eq_true, List.mem_range, and_assoc]

lemma boundaryPattern_iff {p : List FaceStatus} :
    boundaryPattern p = true ↔
      ∃ k, k < p.length ∧ p.getD k FaceStatus.middle ≠ FaceStatus.middle := by
  simp only [boundaryPattern, List.any_eq_true, bne_iff_ne]
  constructor
  · rintro ⟨s, hs, hne⟩
    rcases List.mem_iff_getElem.1 hs with ⟨k, hk, rfl⟩
    exact ⟨k, hk, by rwa [getD_eq_getElem _ _ hk]⟩
  · rintro ⟨k, hk, hne⟩
    refine ⟨p.getD k FaceStatus.middle, getD_mem p _ hk, hne⟩

lemma patternUnshielded_iff {bs : List Block} {i : Nat} {p : List FaceStatus} :
    patternUnshielded bs i p = true ↔
      ∀ j, j < p.length →
        statusUnshielded bs i j (p.getD j FaceStatus.middle) = true := by
  simp [patternUnshielded, List.all_eq_true, List.mem_range]

lemma inBlock_iff {b : Block} {c : List Nat} :
    inBlock b c = true ↔
      c.length = b.bounds.length ∧
      ∀ k, k < b.bounds.length →
        (b.bounds.getD k (0, 0)).1 ≤ c.getD k 0 ∧
        c.getD k 0 ≤ (b.bounds.getD k (0, 0)).2 := by
  simp [inBlock, List.all_eq_true, List.mem_range]

lemma onBoundary_iff {b : Block} {c : List Nat} :
    onBoundary b c = true ↔
      inBlock b c = true ∧
      ∃ k, k < b.bounds.length ∧
        (c.getD k 0 = (b.bounds.getD k (0, 0)).1 ∨
         c.getD k 0 = (b.bounds.getD k (0, 0)).2) := by
  simp [onBoundary, List.any_eq_true, List.mem_range]

lemma exposedCell_iff {bs : List Block} {i : Nat} {c : List Nat} :
    exposedCell bs i c = true ↔
      onBoundary (bs.getD i emptyBlock) c = true ∧
      ∀ j, j < (bs.getD i emptyBlock).bounds.length →
        (c.getD j 0 = ((bs.getD i emptyBlock).bounds.getD j (0, 0)).1 →
          faceShielded bs i j false = false) ∧
        (c.getD j 0 = ((bs.getD i emptyBlock).bounds.getD j (0, 0)).2 →
          faceShielded bs i j true = false) := by
  simp only [exposedCell, Bool.and_eq_true, all_range_iff, Bool.or_eq_true,
    bne_iff_ne, ne_eq, Bool.not_eq_true']
  constructor
  · rintro ⟨hb, hall⟩
    refine ⟨hb, fun j hj => ?_⟩
    obtain ⟨h1, h2⟩ := hall j hj
    constructor
    · intro hx
      rcases h1 with h | h
      · exact absurd hx h
      · exact h
    · intro hx
      rcases h2 with h | h
      · exact absurd hx h
      · exact h
  · rintro ⟨hb, hall⟩
    refine ⟨hb, fun j hj => ?_⟩
    obtain ⟨h1, h2⟩ := hall j hj
    constructor
    · by_cases hx : c.getD j 0 = ((bs.getD i emptyBlock).bounds.getD j (0, 0)).1
      · exact Or.inr (h1 hx)
      · exact Or.inl hx
    · by_cases hx : c.getD j 0 = ((bs.getD i emptyBlock).bounds.getD j (0, 0)).2
      · exact Or.inr (h2 hx)
      · exact Or.inl hx

lemma blockWF_iff {b : Block} :
    blockWF b = true ↔
      ∀ k, k < b.bounds.length →
        (b.bounds.getD k (0, 0)).1 ≤ (b.bounds.getD k (0, 0)).2 := by
  simp [blockWF, all_range_iff]

/-! ## Classifier membership lemmas -/

lemma mem_classifyBlock {bs : List Block} {i : Nat} {b : Block} {s : ReflStruct} :
    s ∈ classifyBlock bs i b ↔
      ∃ p, p ∈ allPatterns b.bounds ∧ boundaryPattern p = true ∧
        patternUnshielded bs i p = true ∧ s = mkStruct i b p := by
  simp only [classifyBlock, List.mem_map, List.mem_filter, Bool.and_eq_true]
  constructor
  · rintro ⟨p, ⟨hp, hb, hu⟩, rfl⟩
    exact ⟨p, hp, hb, hu, rfl⟩
  · rintro ⟨p, hp, hb, hu, rfl⟩
    exact ⟨p, ⟨hp, hb, hu⟩, rfl⟩

lemma mem_classifyAll {bs : List Block} {s : ReflStruct} :
    s ∈ classifyAll bs ↔
      ∃ i, i < bs.length ∧ s ∈ classifyBlock bs i (bs.getD i emptyBlock) := by
  simp [classifyAll, List.mem_flatMap, List.mem_range]

lemma mkStruct_pattern (i : Nat) (b : Block) (p : List FaceStatus) :
    (mkStruct i b p).pattern = p := rfl

lemma mkStruct_bounds (i : Nat) (b : Block) (p : List FaceStatus) :
    (mkStruct i b p).bounds = b.bounds := rfl

lemma mkStruct_blockIdx (i : Nat) (b : Block) (p : List FaceStatus) :
    (mkStruct i b p).blockIdx = i := rfl

/-! ## Canonical pattern lemmas -/

lemma canonicalPattern_length (bounds : List (Nat × Nat)) (c : List Nat) :
    (canonicalPattern bounds c).length = bounds.length := by
  simp [canonicalPattern]

lemma canonicalPattern_getD (bounds : List (Nat × Nat)) (c : List Nat) {k : Nat}
    (h : k < bounds.length) :
    (canonicalPattern bounds c).getD k FaceStatus.middle =
      canonicalStatus (bounds.getD k (0, 0)).1 (bounds.getD k (0, 0)).2 (c.getD k 0) := by
  have hk : k < (List.range bounds.length).length := by simpa using h
  rw [canonicalPattern, getD_eq_getElem _ _ (by simpa using h), List.getElem_map,
    List.getElem_range]

lemma canonicalStatus_mem (lo hi x : Nat) :
    canonicalStatus lo hi x ∈ axisStatuses lo hi := by
  by_cases h : lo = hi
  · subst h
    simp [canonicalStatus, axisStatuses]
  · have hb : (lo == hi) = false := beq_eq_false_iff_ne.2 h
    simp only [canonicalStatus, axisStatuses, hb, Bool.false_eq_true, if_false]
    split_ifs <;> simp

lemma canonicalStatus_matches {lo hi x : Nat} (h1 : lo ≤ x) (h2 : x ≤ hi) :
    statusMatch (canonicalStatus lo hi x) lo hi x = true := by
  by_cases h : lo = hi
  · subst h
    have hx : x = lo := by omega
    simp [canonicalStatus, statusMatch, hx]
  · have hb : (lo == hi) = false := beq_eq_false_iff_ne.2 h
    simp only [canonicalStatus, hb, Bool.false_eq_true, if_false]
    split_ifs with hx1 hx2
    · simp only [statusMatch]
      exact hx1
    · simp only [statusMatch]
      exact hx2
    · simp only [statusMatch, Bool.and_eq_true, decide_eq_true_eq]
      rw [beq_iff_eq] at hx1 hx2
      omega

/-! ## Coverage and exposure: the classifier's partition property -/

lemma covers_exposed_of_mem {bs : List Block} {i : Nat} {s : ReflStruct} {c : List Nat}
    (hwf : blockWF (bs.getD i emptyBlock) = true)
    (hs : s ∈ classifyBlock bs i (bs.getD i emptyBlock))
    (hc : covers s c = true) : exposedCell bs i c = true := by
  set b := bs.getD i emptyBlock with hbdef
  obtain ⟨p, hpmem, hpb, hpu, rfl⟩ := mem_classifyBlock.1 hs
  rw [covers, mkStruct_pattern, mkStruct_bounds] at hc
  obtain ⟨hplen, hclen, hmatch⟩ := coversAt_iff.1 hc
  obtain ⟨hplen2, hax⟩ := mem_allPatterns.1 hpmem
  have hwf' := blockWF_iff.1 hwf
  have hin : inBlock b c = true := by
    refine inBlock_iff.2 ⟨hclen, fun k hk => ?_⟩
    exact statusMatch_bounds (hwf' k hk) (hmatch k hk)
  -- any non-middle status pins the coordinate to a face
  have hpin : ∀ k, k < b.bounds.length → p.getD k FaceStatus.middle ≠ FaceStatus.middle →
      c.getD k 0 = (b.bounds.getD k (0, 0)).1 ∨
      c.getD k 0 = (b.bounds.getD k (0, 0)).2 := by
    intro k hk hne
    have hm := hmatch k hk
    cases hcase : p.getD k FaceStatus.middle <;> rw [hcase] at hm <;>
      simp only [statusMatch, beq_iff_eq] at hm
    · exact Or.inl hm
    · exact Or.inr hm
    · exact absurd hcase hne
    · exact Or.inl hm
  refine exposedCell_iff.2 ⟨?_, ?_⟩
  · refine onBoundary_iff.2 ⟨hin, ?_⟩
    obtain ⟨k, hk, hne⟩ := boundaryPattern_iff.1 hpb
    rw [hplen] at hk
    exact ⟨k, hk, hpin k hk hne⟩
  · intro j hj
    rw [← hbdef] at hj
    have hm := hmatch j hj
    have hu := patternUnshielded_iff.1 hpu j (by rw [hplen]; exact hj)
    have hmem := hax j hj
    constructor
    · intro hx
      rw [← hbdef] at hx
      -- coordinate at the low face: the status there is `atLo` or `both`
      cases hcase : p.getD j FaceStatus.middle <;> rw [hcase] at hm hu hmem <;>
        simp only [statusMatch, beq_iff_eq, Bool.and_eq_true, decide_eq_true_eq,
          statusUnshielded, Bool.not_eq_true'] at hm hu ⊢
      · exact hu
      · -- status `atHi`: then `lo = hi`, impossible for `atHi ∈ axisStatuses`
        exfalso
        by_cases heq : (b.bounds.getD j (0, 0)).1 = (b.bounds.getD j (0, 0)).2
        · rw [axisStatuses_degenerate heq] at hmem
          simp at hmem
        · omega
      · omega
      · exact hu.1
    · intro hx
      rw [← hbdef] at hx
      cases hcase : p.getD j FaceStatus.middle <;> rw [hcase] at hm hu hmem <;>
        simp only [statusMatch, beq_iff_eq, Bool.and_eq_true, decide_eq_true_eq,
          statusUnshielded, Bool.not_eq_true'] at hm hu ⊢
      · -- status `atLo` with the coordinate at the high face: then `lo = hi`
        by_cases heq : (b.bounds.getD j (0, 0)).1 = (b.bounds.getD j (0, 0)).2
        · exfalso
          rw [axisStatuses_degenerate heq] at hmem
          simp at hmem
        · omega
      · exact hu
      · omega
      · exact hu.2

lemma exists_covering_of_exposed {bs : List Block} {i : Nat} {c : List Nat}
    (hlt : i < bs.length) (hexp : exposedCell bs i c = true) :
    ∃ s, s ∈ classifyBlock bs i (bs.getD i emptyBlock) ∧ covers s c = true := by
  set b := bs.getD i emptyBlock with hbdef
  obtain ⟨hob, hshield⟩ := exposedCell_iff.1 hexp
  rw [← hbdef] at hob hshield
  obtain ⟨hin, kb, hkb, hface⟩ := onBoundary_iff.1 hob
  obtain ⟨hclen, hbnd⟩ := inBlock_iff.1 hin
  refine ⟨mkStruct i b (canonicalPattern b.bounds c), ?_, ?_⟩
  · refine mem_classifyBlock.2 ⟨canonicalPattern b.bounds c, ?_, ?_, ?_, rfl⟩
    · refine mem_allPatterns.2 ⟨canonicalPattern_length _ _, fun k hk => ?_⟩
      rw [canonicalPattern_getD _ _ hk]
      exact canonicalStatus_mem _ _ _
    · refine boundaryPattern_iff.2 ⟨kb, ?_, ?_⟩
      · rw [canonicalPattern_length]
        exact hkb
      · rw [canonicalPattern_getD _ _ hkb]
        unfold canonicalStatus
        split_ifs <;> simp_all
    · refine patternUnshielded_iff.2 fun j hj => ?_
      rw [canonicalPattern_length] at hj
      rw [canonicalPattern_getD _ _ hj]
      have hsj := hshield j hj
      have hbj := hbnd j hj
      unfold canonicalStatus
      split_ifs with h1 h2 h3
      · -- degenerate axis: the coordinate is on both faces
        rw [beq_iff_eq] at h1
        have hx : c.getD j 0 = (b.bounds.getD j (0, 0)).1 := by omega
        simp only [statusUnshielded, Bool.and_eq_true, Bool.not_eq_true']
        exact ⟨hsj.1 hx, hsj.2 (by omega)⟩
      · rw [beq_iff_eq] at h2
        simp only [statusUnshielded, Bool.not_eq_true']
        exact hsj.1 h2
      · rw [beq_iff_eq] at h3
        simp only [statusUnshielded, Bool.not_eq_true']
        exact hsj.2 h3
      · simp [statusUnshielded]
  · rw [covers, mkStruct_pattern, mkStruct_bounds]
    refine coversAt_iff.2 ⟨canonicalPattern_length _ _, hclen, fun k hk => ?_⟩
    rw [canonicalPattern_getD _ _ hk]
    exact canonicalStatus_matches (hbnd k hk).1 (hbnd k hk).2

/-! ## Disjointness of distinct structures -/

lemma covers_disjoint_same {bs : List Block} {i : Nat} {b : Block}
    {s1 s2 : ReflStruct} {c : List Nat}
    (hs1 : s1 ∈ classifyBlock bs i b) (hs2 : s2 ∈ classifyBlock bs i b)
    (hne : s1 ≠ s2) (h1 : covers s1 c = true) (h2 : covers s2 c = true) : False := by
  obtain ⟨p1, hp1, _, _, rfl⟩ := mem_classifyBlock.1 hs1
  obtain ⟨p2, hp2, _, _, rfl⟩ := mem_classifyBlock.1 hs2
  have hpne : p1 ≠ p2 := by
    intro h
    exact hne (by rw [h])
  rw [covers, mkStruct_pattern, mkStruct_bounds] at h1 h2
  obtain ⟨hl1, _, hm1⟩ := coversAt_iff.1 h1
  obtain ⟨hl2, _, hm2⟩ := coversAt_iff.1 h2
  have hax1 := (mem_allPatterns.1 hp1).2
  have hax2 := (mem_allPatterns.1 hp2).2
  obtain ⟨k, hk, hkne⟩ :=
    ne_lists_exists_getD p1 p2 FaceStatus.middle (by rw [hl1, hl2]) hpne
  rw [hl1] at hk
  exact statusMatch_exclusive (hax1 k hk) (hax2 k hk) hkne (hm1 k hk) (hm2 k hk)

lemma covers_in_bounds {bs : List Block} {i : Nat} {b : Block} {s : ReflStruct}
    {c : List Nat} (hwf : blockWF b = true) (hs : s ∈ classifyBlock bs i b)
    (hc : covers s c = true) :
    c.length = b.bounds.length ∧
    ∀ k, k < b.bounds.length →
      (b.bounds.getD k (0, 0)).1 ≤ c.getD k 0 ∧
      c.getD k 0 ≤ (b.bounds.getD k (0, 0)).2 := by
  obtain ⟨p, hpmem, _, _, rfl⟩ := mem_classifyBlock.1 hs
  rw [covers, mkStruct_pattern, mkStruct_bounds] at hc
  obtain ⟨_, hclen, hmatch⟩ := coversAt_iff.1 hc
  exact ⟨hclen, fun k hk =>
    statusMatch_bounds (blockWF_iff.1 hwf k hk) (hmatch k hk)⟩

lemma covers_disjoint_cross {bs : List Block} {i j : Nat}
    {s1 s2 : ReflStruct} {c : List Nat}
    (hs1 : s1 ∈ classifyBlock bs i (bs.getD i emptyBlock))
    (hs2 : s2 ∈ classifyBlock bs j (bs.getD j emptyBlock))
    (hwf1 : blockWF (bs.getD i emptyBlock) = true)
    (hwf2 : blockWF (bs.getD j emptyBlock) = true)
    (hpos : 0 < (bs.getD i emptyBlock).bounds.length)
    (hlen : (bs.getD j emptyBlock).bounds.length = (bs.getD i emptyBlock).bounds.length)
    (hsep : sepOk (bs.getD i emptyBlock).bounds (bs.getD j emptyBlock).bounds = true)
    (h1 : covers s1 c = true) (h2 : covers s2 c = true) : False := by
  obtain ⟨_, hb1⟩ := covers_in_bounds hwf1 hs1 h1
  obtain ⟨_, hb2⟩ := covers_in_bounds hwf2 hs2 h2
  have hg := (all_range_iff _ _).1 hsep 0 hpos
  rw [decide_eq_true_eq] at hg
  have hx1 := hb1 0 hpos
  have hx2 := hb2 0 (by omega)
  unfold axisGap at hg
  split_ifs at hg <;> omega

/-! ## Facts extracted from a successful geometry parse -/

lemma parse_ok_elim {ds : List Nat} {es : List GeometryEntry} {bs : List Block}
    (h : parseGeometry ds es = Except.ok bs) :
    geomOk ds es = true ∧ bs = es.map toBlock := by
  unfold parseGeometry at h
  split_ifs at h with hg
  exact ⟨hg, (Except.ok.inj h).symm⟩

lemma geomOk_entry {ds : List Nat} {es : List GeometryEntry} (h : geomOk ds es = true)
    {i : Nat} (hi : i < es.length) : entryOk ds (es.getD i emptyEntry) = true := by
  have hall := ((Bool.and_eq_true _ _).mp h).1
  rw [List.all_eq_true] at hall
  exact hall _ (getD_mem es emptyEntry hi)

lemma geomOk_sep {ds : List Nat} {es : List GeometryEntry} (h : geomOk ds es = true)
    {i j : Nat} (hi : i < es.length) (hj : j < es.length) (hij : i ≠ j) :
    sepOk (es.getD i emptyEntry).bounds (es.getD j emptyEntry).bounds = true := by
  have hp := ((Bool.and_eq_true _ _).mp h).2
  unfold pairwiseSepOk at hp
  have hi' := (all_range_iff _ _).1 hp i hi
  have hj' := (all_range_iff _ _).1 hi' j hj
  rw [Bool.or_eq_true] at hj'
  rcases hj' with h' | h'
  · exact absurd (beq_iff_eq.1 h') hij
  · exact h'

lemma entryOk_parts {ds : List Nat} {e : GeometryEntry} (h : entryOk ds e = true) :
    shapeSupported ds.length e.shape = true ∧ boundsOk ds e.bounds = true ∧
    kindSupported e.boundary = true := by
  simpa [entryOk, Bool.and_eq_true, and_assoc] using h

lemma shapeSupported_dims {n : Nat} {s : String} (h : shapeSupported n s = true) :
    n = 2 ∨ n = 3 := by
  simp only [shapeSupported, Bool.or_eq_true, Bool.and_eq_true, beq_iff_eq] at h
  rcases h with ⟨_, h⟩ | ⟨_, h⟩
  · rcases h with h | h
    · exact Or.inl h
    · exact Or.inr h
  · exact Or.inl h

lemma boundsOk_parts {ds : List Nat} {bnds : List (Nat × Nat)}
    (h : boundsOk ds bnds = true) :
    bnds.length = ds.length ∧
    ∀ k, k < ds.length →
      (bnds.getD k (0, 0)).1 ≤ (bnds.getD k (0, 0)).2 ∧
      (bnds.getD k (0, 0)).2 < ds.getD k 0 := by
  simp only [boundsOk, Bool.and_eq_true, beq_iff_eq, all_range_iff,
    decide_eq_true_eq] at h
  exact ⟨h.1, h.2⟩

lemma toBlock_bounds (e : GeometryEntry) : (toBlock e).bounds = e.bounds := rfl

lemma blockWF_toBlock {ds : List Nat} {e : GeometryEntry}
    (h : boundsOk ds e.bounds = true) : blockWF (toBlock e) = true := by
  obtain ⟨hlen, hk⟩ := boundsOk_parts h
  refine blockWF_iff.2 fun k hkk => ?_
  rw [toBlock_bounds] at hkk ⊢
  exact (hk k (by omega)).1

lemma getD_map_toBlock (es : List GeometryEntry) (i : Nat) :
    (es.map toBlock).getD i emptyBlock = toBlock (es.getD i emptyEntry) := by
  rw [show emptyBlock = toBlock emptyEntry from rfl]
  exact List.getD_map es emptyEntry toBlock

/-- **C1**: For every obstacle set that passes geometry validation, the set
of grid coordinates covered by the reflection structures emitted by the
classifier equals exactly the set of exposed-boundary coordinates of all
obstacles, and the covered sets of any two distinct emitted structures are
disjoint: the coverage is a partition of the exposed boundary. -/
theorem classifier_partition (ds : List Nat) (es : List GeometryEntry)
    (bs : List Block) (h : parseGeometry ds es = Except.ok bs) :
    (∀ c, coveredAll bs c = true ↔ exposedBoundaryAll bs c = true) ∧
    (∀ s1 ∈ classifyAll bs, ∀ s2 ∈ classifyAll bs, s1 ≠ s2 → ∀ c,
      ¬(covers s1 c = true ∧ covers s2 c = true)) := by
  obtain ⟨hg, rfl⟩ := parse_ok_elim h
  have hwf : ∀ i, i < es.length →
      blockWF ((es.map toBlock).getD i emptyBlock) = true := by
    intro i hi
    rw [getD_map_toBlock]
    exact blockWF_toBlock (entryOk_parts (geomOk_entry hg hi)).2.1
  have hboundlen : ∀ i, i < es.length →
      ((es.map toBlock).getD i emptyBlock).bounds.length = ds.length := by
    intro i hi
    rw [getD_map_toBlock, toBlock_bounds]
    exact (boundsOk_parts (entryOk_parts (geomOk_entry hg hi)).2.1).1
  have hdims : ∀ i, i < es.length → 0 < ds.length := by
    intro i hi
    rcases shapeSupported_dims (entryOk_parts (geomOk_entry hg hi)).1 with h2 | h3 <;>
      omega
  constructor
  · intro c
    constructor
    · intro hc
      obtain ⟨s, hs, hcv⟩ := List.any_eq_true.1 hc
      obtain ⟨i, hi, hsb⟩ := mem_classifyAll.1 hs
      rw [List.length_map] at hi
      refine (any_range_iff _ _).2 ⟨i, by rw [List.length_map]; exact hi, ?_⟩
      exact covers_exposed_of_mem (hwf i hi) hsb hcv
    · intro he
      obtain ⟨i, hi, hexp⟩ := (any_range_iff _ _).1 he
      obtain ⟨s, hs, hcv⟩ := exists_covering_of_exposed hi hexp
      exact List.any_eq_true.2 ⟨s, mem_classifyAll.2 ⟨i, hi, hs⟩, hcv⟩
  · rintro s1 hs1 s2 hs2 hne c ⟨h1, h2⟩
    obtain ⟨i, hi, hsb1⟩ := mem_classifyAll.1 hs1
    obtain ⟨j, hj, hsb2⟩ := mem_classifyAll.1 hs2
    rw [List.length_map] at hi hj
    by_cases hij : i = j
    · subst hij
      exact covers_disjoint_same hsb1 hsb2 hne h1 h2
    · refine covers_disjoint_cross hsb1 hsb2 (hwf i hi) (hwf j hj) ?_ ?_ ?_ h1 h2
      · rw [hboundlen i hi]
        exact hdims i hi
      · rw [hboundlen i hi, hboundlen j hj]
      · rw [getD_map_toBlock, getD_map_toBlock, toBlock_bounds, toBlock_bounds]
        exact geomOk_sep hg hi hj hij

/-! ## Shielded faces receive no circuits -/

lemma faceShielded_axis_lt {bs : List Block} {i j : Nat} {side : Bool}
    (h : faceShielded bs i j side = true) :
    j < (bs.getD i emptyBlock).bounds.length := by
  unfold faceShielded at h
  obtain ⟨i', _, hcond⟩ := (any_range_iff _ _).1 h
  rw [Bool.and_eq_true] at hcond
  have hsf := hcond.2
  unfold shieldsFace at hsf
  rw [Bool.and_eq_true, Bool.and_eq_true] at hsf
  exact decide_eq_true_eq.mp hsf.1.1

lemma blockWF_of_inBlock {b : Block} {c : List Nat} (h : inBlock b c = true) :
    blockWF b = true := by
  obtain ⟨_, hk⟩ := inBlock_iff.1 h
  refine blockWF_iff.2 fun k hkk => ?_
  have := hk k hkk
  omega

/-- **C3**: For every obstacle face classified as shielded, the classifier
emits no reflection structure of that obstacle covering the face, and the
boundary circuit generator produces no reflection circuit touching it:
only exposed faces receive reflection circuits. -/
theorem shielded_face_no_circuit (bs : List Block) (i j : Nat) (side : Bool)
    (l : Lattice) (h : faceShielded bs i j side = true) :
    (∀ s ∈ classifyBlock bs i (bs.getD i emptyBlock), ∀ c,
      faceCell (bs.getD i emptyBlock) j side c = true → covers s c = false) ∧
    (∀ pr ∈ boundaryCircuits l bs i, ∀ c,
      faceCell (bs.getD i emptyBlock) j side c = true → covers pr.1 c = false) := by
  have hmain : ∀ s ∈ classifyBlock bs i (bs.getD i emptyBlock), ∀ c,
      faceCell (bs.getD i emptyBlock) j side c = true → covers s c = false := by
    intro s hs c hface
    cases hcv : covers s c with
    | false => rfl
    | true =>
      exfalso
      unfold faceCell at hface
      rw [Bool.and_eq_true, beq_iff_eq] at hface
      obtain ⟨hin, hx⟩ := hface
      have hwf := blockWF_of_inBlock hin
      have hexp := covers_exposed_of_mem hwf hs hcv
      obtain ⟨_, hshield⟩ := exposedCell_iff.1 hexp
      have hj := faceShielded_axis_lt h
      cases side with
      | false =>
        rw [if_neg (by simp)] at hx
        have := (hshield j hj).1 hx
        rw [this] at h
        cases h
      | true =>
        rw [if_pos rfl] at hx
        have := (hshield j hj).2 hx
        rw [this] at h
        cases h
  refine ⟨hmain, ?_⟩
  intro pr hpr c hface
  unfold boundaryCircuits at hpr
  obtain ⟨s, hs, rfl⟩ := List.mem_map.1 hpr
  exact hmain s hs c hface

/-! ## Classification of a single isolated obstacle -/

lemma faceShielded_single (b : Block) (j : Nat) (side : Bool) :
    faceShielded [b] 0 j side = false := by
  simp [faceShielded, List.range_succ]

lemma statusUnshielded_single (b : Block) (j : Nat) (s : FaceStatus) :
    statusUnshielded [b] 0 j s = true := by
  cases s <;> simp [statusUnshielded, faceShielded_single]

lemma patternUnshielded_single (b : Block) (p : List FaceStatus) :
    patternUnshielded [b] 0 p = true :=
  patternUnshielded_iff.2 fun j _ => statusUnshielded_single b j _

lemma classifyAll_singleton (b : Block) : classifyAll [b] = classifyBlock [b] 0 b := by
  simp [classifyAll, List.range_succ]

lemma classifyBlock_single_eq (b : Block) :
    classifyBlock [b] 0 b =
      ((allPatterns b.bounds).filter boundaryPattern).map (mkStruct 0 b) := by
  unfold classifyBlock
  congr 1
  apply List.filter_congr
  intro p _
  rw [patternUnshielded_single, Bool.and_true]

/-- **C4**: For a single isolated cuboid obstacle the classifier's output
matches the combinatorics of a rectangular box's boundary: in 2D (grid
`{x:8, y:8}`, velocities `{x:4, y:4}`, obstacle `x:[5,6], y:[1,2]`,
specular) it emits exactly 4 walls and zero reset edges with pairwise
disjoint coverage; in 3D it emits exactly 6 walls, 12 reset edges and 8
corner points, all non-overlapping. -/
theorem single_cuboid_boundary_combinatorics :
    (parseGeometry [8, 8] [⟨"cuboid", [(5, 6), (1, 2)], "specular"⟩] =
      Except.ok [toBlock ⟨"cuboid", [(5, 6), (1, 2)], "specular"⟩] ∧
     (classifyAll [toBlock ⟨"cuboid", [(5, 6), (1, 2)], "specular"⟩]).countP
        (fun s => kindOfPattern s.pattern == StructKind.wall) = 4 ∧
     (classifyAll [toBlock ⟨"cuboid", [(5, 6), (1, 2)], "specular"⟩]).countP
        (fun s => kindOfPattern s.pattern == StructKind.resetEdge) = 0 ∧
     (∀ s1 ∈ classifyAll [toBlock ⟨"cuboid", [(5, 6), (1, 2)], "specular"⟩],
        ∀ s2 ∈ classifyAll [toBlock ⟨"cuboid", [(5, 6), (1, 2)], "specular"⟩],
        s1 ≠ s2 → ∀ c, ¬(covers s1 c = true ∧ covers s2 c = true))) ∧
    (∀ (x0 x1 y0 y1 z0 z1 : Nat) (ks : List (BoundaryKind × BoundaryKind)),
      x0 < x1 → y0 < y1 → z0 < z1 →
      (classifyAll [⟨[(x0, x1), (y0, y1), (z0, z1)], ks⟩]).countP
        (fun s => kindOfPattern s.pattern == StructKind.wall) = 6 ∧
      (classifyAll [⟨[(x0, x1), (y0, y1), (z0, z1)], ks⟩]).countP
        (fun s => kindOfPattern s.pattern == StructKind.resetEdge) = 12 ∧
      (classifyAll [⟨[(x0, x1), (y0, y1), (z0, z1)], ks⟩]).countP
        (fun s => kindOfPattern s.pattern == StructKind.point) = 8 ∧
      (∀ s1 ∈ classifyAll [⟨[(x0, x1), (y0, y1), (z0, z1)], ks⟩],
        ∀ s2 ∈ classifyAll [⟨[(x0, x1), (y0, y1), (z0, z1)], ks⟩],
        s1 ≠ s2 → ∀ c, ¬(covers s1 c = true ∧ covers s2 c = true))) := by
  constructor
  · refine ⟨rfl, by decide, by decide, ?_⟩
    rintro s1 hs1 s2 hs2 hne c ⟨h1, h2⟩
    rw [classifyAll_singleton] at hs1 hs2
    exact covers_disjoint_same hs1 hs2 hne h1 h2
  · intro x0 x1 y0 y1 z0 z1 ks hx hy hz
    rw [classifyAll_singleton, classifyBlock_single_eq]
    refine ⟨?_, ?_, ?_, ?_⟩
    · rw [List.countP_map, List.countP_filter]
      simp only [Function.comp, mkStruct_pattern]
      simp only [allPatterns, axisStatuses_proper hx.ne, axisStatuses_proper hy.ne,
        axisStatuses_proper hz.ne]
      decide
    · rw [List.countP_map, List.countP_filter]
      simp only [Function.comp, mkStruct_pattern]
      simp only [allPatterns, axisStatuses_proper hx.ne, axisStatuses_proper hy.ne,
        axisStatuses_proper hz.ne]
      decide
    · rw [List.countP_map, List.countP_filter]
      simp only [Function.comp, mkStruct_pattern]
      simp only [allPatterns, axisStatuses_proper hx.ne, axisStatuses_proper hy.ne,
        axisStatuses_proper hz.ne]
      decide
    · rw [← classifyBlock_single_eq]
      rintro s1 hs1 s2 hs2 hne c ⟨h1, h2⟩
      exact covers_disjoint_same hs1 hs2 hne h1 h2

/-! ## Corners where faces of different boundary kinds meet -/

/-- **C5**: For an obstacle in which two adjacent faces carrying different
boundary-condition kinds meet at a corner (formalized in 2D, for any of
the four corners), the classifier emits a corner structure that encodes
both kinds distinctly — one case per velocity direction reaching the
corner, each carrying the kind of the face it strikes — and never a corner
structure that defaults to a single one of the two kinds. -/
theorem corner_mixed_kinds_distinct (bs : List Block) (i : Nat)
    (x0 x1 y0 y1 : Nat) (kx ky : BoundaryKind × BoundaryKind) (sx sy : Bool)
    (hb : bs.getD i emptyBlock = ⟨[(x0, x1), (y0, y1)], [kx, ky]⟩)
    (hlt : i < bs.length) (hx : x0 < x1) (hy : y0 < y1)
    (hkne : sideKind kx sx ≠ sideKind ky sy)
    (hsx : faceShielded bs i 0 sx = false)
    (hsy : faceShielded bs i 1 sy = false) :
    ∃ s ∈ classifyAll bs,
      kindOfPattern s.pattern = StructKind.point ∧
      covers s [sideCoord x0 x1 sx, sideCoord y0 y1 sy] = true ∧
      s.cases = [(0, sx, sideKind kx sx), (1, sy, sideKind ky sy)] ∧
      ¬(∀ cse ∈ s.cases, cse.2.2 = sideKind kx sx) ∧
      ¬(∀ cse ∈ s.cases, cse.2.2 = sideKind ky sy) := by
  have hcases : (mkStruct i (⟨[(x0, x1), (y0, y1)], [kx, ky]⟩ : Block)
      [sideStatus sx, sideStatus sy]).cases =
      [(0, sx, sideKind kx sx), (1, sy, sideKind ky sy)] := by
    cases sx <;> cases sy <;> rfl
  refine ⟨mkStruct i (⟨[(x0, x1), (y0, y1)], [kx, ky]⟩ : Block)
    [sideStatus sx, sideStatus sy], ?_, ?_, ?_, ?_, ?_, ?_⟩
  · refine mem_classifyAll.2 ⟨i, hlt, ?_⟩
    rw [hb]
    refine mem_classifyBlock.2 ⟨[sideStatus sx, sideStatus sy], ?_, ?_, ?_, rfl⟩
    · show [sideStatus sx, sideStatus sy] ∈ allPatterns [(x0, x1), (y0, y1)]
      simp only [allPatterns, axisStatuses_proper hx.ne, axisStatuses_proper hy.ne]
      cases sx <;> cases sy <;> decide
    · cases sx <;> cases sy <;> decide
    · refine patternUnshielded_iff.2 fun j hj => ?_
      simp only [List.length_cons, List.length_nil] at hj
      interval_cases j
      · cases hsxv : sx <;> rw [hsxv] at hsx <;>
          simp [sideStatus, statusUnshielded, hsx]
      · cases hsyv : sy <;> rw [hsyv] at hsy <;>
          simp [sideStatus, statusUnshielded, hsy]
  · cases sx <;> cases sy <;> rfl
  · rw [covers, mkStruct_pattern, mkStruct_bounds]
    cases sx <;> cases sy <;>
      simp [coversAt, sideStatus, sideCoord, statusMatch, List.range_succ]
  · exact hcases
  · intro hall
    have h2 := hall (1, sy, sideKind ky sy) (by rw [hcases]; simp)
    exact hkne (h2.symm)
  · intro hall
    have h1 := hall (0, sx, sideKind kx sx) (by rw [hcases]; simp)
    exact hkne h1

/-! ## Lattice validation and determinism -/

lemma isPow2Aux_iff : ∀ fuel n, n ≤ fuel → (isPow2Aux fuel n = true ↔ ∃ k, n = 2 ^ k) := by
  intro fuel
  induction fuel with
  | zero =>
    intro n hn
    have hn0 : n = 0 := by omega
    subst hn0
    simp only [isPow2Aux]
    constructor
    · intro h
      cases h
    · rintro ⟨k, hk⟩
      have := pow_pos (by norm_num : (0 : Nat) < 2) k
      omega
  | succ fuel ih =>
    intro n hn
    match n with
    | 0 =>
      simp only [isPow2Aux]
      constructor
      · intro h
        cases h
      · rintro ⟨k, hk⟩
        have := pow_pos (by norm_num : (0 : Nat) < 2) k
        omega
    | 1 =>
      simp only [isPow2Aux]
      exact ⟨fun _ => ⟨0, rfl⟩, fun _ => trivial⟩
    | (m + 2) =>
      simp only [isPow2Aux, Bool.and_eq_true, beq_iff_eq]
      rw [ih ((m + 2) / 2) (by omega)]
      constructor
      · rintro ⟨hmod, k, hk⟩
        refine ⟨k + 1, ?_⟩
        have hp : (2 : Nat) ^ (k + 1) = 2 * 2 ^ k := by
          rw [pow_succ]
          ring
        omega
      · rintro ⟨k, hk⟩
        match k with
        | 0 => omega
        | k + 1 =>
          have hp : (2 : Nat) ^ (k + 1) = 2 * 2 ^ k := by
            rw [pow_succ]
            ring
          exact ⟨by omega, k, by omega⟩

lemma isPow2_iff (n : Nat) : isPow2 n = true ↔ ∃ k, n = 2 ^ k :=
  isPow2Aux_iff n n le_rfl

/-- **C6**: Lattice construction raises a `ConfigurationError` if and only
if some grid dimension or velocity count in the specification is not a
power of two, or the axis keys of `dim` and `velocities` are inconsistent;
on such an error no lattice object is produced. -/
theorem lattice_config_error_iff (s : LatticeSpec) :
    ((∃ err, parseLattice s = Except.error err) ↔
      ((∃ p ∈ s.dim, ¬∃ k, p.2 = 2 ^ k) ∨ (∃ p ∈ s.velocities, ¬∃ k, p.2 = 2 ^ k) ∨
       s.dim.map Prod.fst ≠ s.velocities.map Prod.fst)) ∧
    (∀ err, parseLattice s = Except.error err → ∀ l, parseLattice s ≠ Except.ok l) := by
  constructor
  · unfold parseLattice
    split_ifs with hc
    · constructor
      · rintro ⟨err, herr⟩
        simp at herr
      · intro hbad
        exfalso
        rw [Bool.and_eq_true, Bool.and_eq_true] at hc
        obtain ⟨⟨hkeys, hdim⟩, hvel⟩ := hc
        rw [List.all_eq_true] at hdim hvel
        rcases hbad with ⟨p, hp, hnp⟩ | ⟨p, hp, hnp⟩ | hne
        · exact hnp ((isPow2_iff _).1 (hdim p hp))
        · exact hnp ((isPow2_iff _).1 (hvel p hp))
        · exact hne (beq_iff_eq.1 hkeys)
    · constructor
      · intro _
        by_contra hbad
        push_neg at hbad
        obtain ⟨h1, h2, h3⟩ := hbad
        apply hc
        rw [Bool.and_eq_true, Bool.and_eq_true]
        refine ⟨⟨beq_iff_eq.2 h3, ?_⟩, ?_⟩
        · rw [List.all_eq_true]
          intro p hp
          exact (isPow2_iff _).2 (h1 p hp)
        · rw [List.all_eq_true]
          intro p hp
          exact (isPow2_iff _).2 (h2 p hp)
      · intro _
        exact ⟨_, rfl⟩
  · intro err herr l hok
    rw [herr] at hok
    simp at hok

/-- **C7**: Lattice construction is deterministic: two constructions from
the same specification yield equal lattices, hence identical qubit counts,
identical register partitioning and identical qubit-index mappings for
every logical role (grid axis, velocity axis, ancilla). -/
theorem lattice_construction_deterministic (s : LatticeSpec) (l1 l2 : Lattice)
    (h1 : parseLattice s = Except.ok l1) (h2 : parseLattice s = Except.ok l2) :
    l1 = l2 ∧ numTotalQubits l1 = numTotalQubits l2 ∧
    registerSizes l1 = registerSizes l2 ∧
    (∀ i, gridQubitIndices l1 i = gridQubitIndices l2 i) ∧
    (∀ i, velQubitIndices l1 i = velQubitIndices l2 i) ∧
    ancillaQubitIndices l1 = ancillaQubitIndices l2 := by
  have heq : l1 = l2 := by
    rw [h1] at h2
    exact Except.ok.inj h2
  subst heq
  exact ⟨rfl, rfl, rfl, fun _ => rfl, fun _ => rfl, rfl⟩

/-! ## Obstacle serialization round trip -/

lemma kindSupported_values {s : String} (h : kindSupported s = true) :
    s = "specular" ∨ s = "bounceback" := by
  unfold kindSupported kindOfString at h
  split at h
  · exact Or.inl rfl
  · exact Or.inr rfl
  · simp at h

lemma kindOfString_stringOfKind (k : BoundaryKind) :
    kindOfString (stringOfKind k) = some k := by
  cases k <;> rfl

/-- **C8**: For every obstacle accepted by the geometry model, serializing
its bounding box and re-parsing the serialized form through the geometry
model yields an obstacle equal to the original: parse after serialize is
the identity on accepted obstacles. -/
theorem parse_serialize_roundtrip (ds : List Nat) (e : GeometryEntry) (b : Block)
    (h : parseEntry ds e = Except.ok b) :
    parseEntry ds (serializeBlock b) = Except.ok b := by
  unfold parseEntry at h
  split_ifs at h with hok
  have hb : b = toBlock e := (Except.ok.inj h).symm
  subst hb
  obtain ⟨hshape, hbounds, hkind⟩ := entryOk_parts hok
  obtain ⟨hblen, _⟩ := boundsOk_parts hbounds
  have hpos : 0 < e.bounds.length := by
    rcases shapeSupported_dims hshape with h2 | h3 <;> omega
  obtain ⟨k', hk'⟩ := Option.isSome_iff_exists.1 hkind
  have htb : toBlock e = ⟨e.bounds, e.bounds.map (fun _ => (k', k'))⟩ := by
    unfold toBlock
    rw [hk']
    rfl
  have hser : serializeBlock (toBlock e) = ⟨"cuboid", e.bounds, stringOfKind k'⟩ := by
    rw [htb]
    unfold serializeBlock
    have hget : (e.bounds.map (fun _ => (k', k'))).getD 0
        (BoundaryKind.specular, BoundaryKind.specular) = (k', k') := by
      rw [getD_map_of_lt e.bounds _ (0, 0) _ hpos]
    simp only [hget]
  rw [hser]
  have hok2 : entryOk ds ⟨"cuboid", e.bounds, stringOfKind k'⟩ = true := by
    unfold entryOk
    rw [Bool.and_eq_true, Bool.and_eq_true]
    refine ⟨⟨?_, hbounds⟩, ?_⟩
    · rcases shapeSupported_dims hshape with hd | hd <;> simp [shapeSupported, hd]
    · unfold kindSupported
      rw [kindOfString_stringOfKind]
      rfl
  unfold parseEntry
  rw [if_pos hok2]
  have heq2 : toBlock ⟨"cuboid", e.bounds, stringOfKind k'⟩ =
      ⟨e.bounds, e.bounds.map (fun _ => (k', k'))⟩ := by
    unfold toBlock
    rw [kindOfString_stringOfKind]
    rfl
  rw [heq2, ← htb]

/-! ## The generator is a pure function of structure and layout -/

/-- **C9**: Boundary circuit generation is effect-free on its inputs: the
generator leaves the grid, the obstacles and all reflection-data
structures unchanged, and the emitted fragments depend only on the
reflection structures and the qubit layout, so repeated invocation on the
same inputs emits the same circuit fragments. -/
theorem generator_effect_free (st st' : GenState)
    (hl : st.lattice = st'.lattice) (hs : st.structures = st'.structures) :
    (runGenerator st).2.lattice = st.lattice ∧
    (runGenerator st).2.blocks = st.blocks ∧
    (runGenerator st).2.structures = st.structures ∧
    (runGenerator st).1 = (runGenerator st').1 := by
  refine ⟨rfl, rfl, rfl, ?_⟩
  simp only [runGenerator, hl, hs]

/-! ## The space-time variant's restrictions -/

/-- **C10**: The space-time algorithm variant builds circuits only for the
D1Q2, D1Q3 and D2Q4 discretizations and only for a single time step: any
other discretization is rejected rather than compiled, and multiple time
steps arise only by composing freshly prepared single-step circuits
through the external reinitialization mechanism, never within one
generated circuit. -/
theorem spacetime_discretization_and_steps (s : STSpec) :
    ((∃ c, buildSpaceTime s = Except.ok c) ↔
      (s.numDims, s.numVelChannels) ∈ supportedSTDiscretizations) ∧
    (∀ c, buildSpaceTime s = Except.ok c → c.steps = 1) ∧
    (∀ n cs, reinitMultiStep s n = Except.ok cs →
      cs.length = n ∧ ∀ c ∈ cs, c.steps = 1) := by
  refine ⟨?_, ?_, ?_⟩
  · unfold buildSpaceTime
    split_ifs with hmem
    · exact ⟨fun _ => hmem, fun _ => ⟨_, rfl⟩⟩
    · constructor
      · rintro ⟨c, hc⟩
        simp at hc
      · intro h
        exact absurd h hmem
  · intro c hc
    unfold buildSpaceTime at hc
    split_ifs at hc
    have hcc := Except.ok.inj hc
    rw [← hcc]
  · intro n cs hcs
    unfold reinitMultiStep at hcs
    cases hb : buildSpaceTime s with
    | ok c =>
      rw [hb] at hcs
      have hrep := Except.ok.inj hcs
      subst hrep
      refine ⟨List.length_replicate _ _, ?_⟩
      intro c' hc'
      have hcc := List.eq_of_mem_replicate hc'
      subst hcc
      unfold buildSpaceTime at hb
      split_ifs at hb
      have hcc2 := Except.ok.inj hb
      rw [← hcc2]
    | error e =>
      rw [hb] at hcs
      simp at hcs

/-! ## Geometry validation: the error condition and the separation rule -/

lemma axisGap_comm {lo hi lo' hi' : Nat} (h1 : lo ≤ hi) (h2 : lo' ≤ hi') :
    axisGap lo' hi' lo hi = axisGap lo hi lo' hi' := by
  unfold axisGap
  split_ifs <;> omega

/-- **C2**: Obstacle parsing raises a `GeometryError` if and only if some
obstacle has an unsupported shape, invalid bounds (outside `[0, dim)` on
some axis), an unsupported boundary-condition kind, or is separated from
another obstacle by fewer than 2 grid points in some dimension.  In
particular, for any pair of individually valid cuboid obstacles,
separation of exactly 2 grid points in all axes is accepted, while
separation of exactly 2 grid points in one axis together with 0 in another
is rejected with a `GeometryError`. -/
theorem geometry_error_iff (ds : List Nat) (es : List GeometryEntry) :
    ((∃ err, parseGeometry ds es = Except.error err) ↔
      ((∃ e ∈ es, ¬(shapeSupported ds.length e.shape = true)) ∨
       (∃ e ∈ es, ¬(boundsOk ds e.bounds = true)) ∨
       (∃ e ∈ es, ¬(kindSupported e.boundary = true)) ∨
       (∃ i j, i < es.length ∧ j < es.length ∧ i ≠ j ∧
         ¬(sepOk (es.getD i emptyEntry).bounds
             (es.getD j emptyEntry).bounds = true)))) ∧
    (∀ e1 e2 : GeometryEntry, e1.shape = "cuboid" → e2.shape = "cuboid" →
      entryOk ds e1 = true → entryOk ds e2 = true →
      ((∀ k, k < ds.length →
          axisGap (e1.bounds.getD k (0, 0)).1 (e1.bounds.getD k (0, 0)).2
            (e2.bounds.getD k (0, 0)).1 (e2.bounds.getD k (0, 0)).2 = 2) →
        parseGeometry ds [e1, e2] = Except.ok [toBlock e1, toBlock e2]) ∧
      ((∃ k, k < ds.length ∧
          axisGap (e1.bounds.getD k (0, 0)).1 (e1.bounds.getD k (0, 0)).2
            (e2.bounds.getD k (0, 0)).1 (e2.bounds.getD k (0, 0)).2 = 2) →
       (∃ k, k < ds.length ∧
          axisGap (e1.bounds.getD k (0, 0)).1 (e1.bounds.getD k (0, 0)).2
            (e2.bounds.getD k (0, 0)).1 (e2.bounds.getD k (0, 0)).2 = 0) →
        ∃ err, parseGeometry ds [e1, e2] = Except.error err)) := by
  constructor
  · unfold parseGeometry
    split_ifs with hg
    · constructor
      · rintro ⟨err, herr⟩
        simp at herr
      · intro hbad
        exfalso
        have hall := ((Bool.and_eq_true _ _).mp hg).1
        rw [List.all_eq_true] at hall
        rcases hbad with ⟨e, he, hb⟩ | ⟨e, he, hb⟩ | ⟨e, he, hb⟩ |
          ⟨i, j, hi, hj, hij, hb⟩
        · exact hb (entryOk_parts (hall e he)).1
        · exact hb (entryOk_parts (hall e he)).2.1
        · exact hb (entryOk_parts (hall e he)).2.2
        · exact hb (geomOk_sep hg hi hj hij)
    · constructor
      · intro _
        by_contra hbad
        push_neg at hbad
        obtain ⟨h1, h2, h3, h4⟩ := hbad
        apply hg
        unfold geomOk
        rw [Bool.and_eq_true]
        constructor
        · rw [List.all_eq_true]
          intro e he
          unfold entryOk
          rw [Bool.and_eq_true, Bool.and_eq_true]
          exact ⟨⟨h1 e he, h2 e he⟩, h3 e he⟩
        · unfold pairwiseSepOk
          rw [all_range_iff]
          intro i hi
          rw [all_range_iff]
          intro j hj
          rw [Bool.or_eq_true]
          by_cases hij : i = j
          · exact Or.inl (beq_iff_eq.2 hij)
          · exact Or.inr (h4 i j hi hj hij)
      · intro _
        exact ⟨_, rfl⟩
  · intro e1 e2 hs1 hs2 ho1 ho2
    have hlen1 := (boundsOk_parts (entryOk_parts ho1).2.1).1
    have hlen2 := (boundsOk_parts (entryOk_parts ho2).2.1).1
    have hwf1 := boundsOk_parts (entryOk_parts ho1).2.1
    have hwf2 := boundsOk_parts (entryOk_parts ho2).2.1
    constructor
    · intro hgap
      unfold parseGeometry
      rw [if_pos ?_]
      · rfl
      · unfold geomOk
        rw [Bool.and_eq_true]
        constructor
        · rw [List.all_eq_true]
          intro e he
          rcases List.mem_cons.1 he with rfl | he2
          · exact ho1
          · rcases List.mem_cons.1 he2 with rfl | he3
            · exact ho2
            · simp at he3
        · unfold pairwiseSepOk
          rw [all_range_iff]
          intro i hi
          rw [all_range_iff]
          intro j hj
          rw [Bool.or_eq_true]
          simp only [List.length_cons, List.length_nil] at hi hj
          interval_cases i <;> interval_cases j
          · exact Or.inl rfl
          · refine Or.inr ?_
            simp only [List.getD_cons_zero, List.getD_cons_succ]
            unfold sepOk
            rw [all_range_iff]
            intro k hk
            rw [decide_eq_true_eq, hgap k (by omega)]
          · refine Or.inr ?_
            simp only [List.getD_cons_zero, List.getD_cons_succ]
            unfold sepOk
            rw [all_range_iff]
            intro k hk
            rw [decide_eq_true_eq,
              axisGap_comm (hwf1.2 k (by omega)).1 (hwf2.2 k (by omega)).1,
              hgap k (by omega)]
          · exact Or.inl rfl
    · rintro ⟨k2, hk2, hg2⟩ ⟨k0, hk0, hg0⟩
      unfold parseGeometry
      split_ifs with hg
      · exfalso
        have hsep := geomOk_sep hg (i := 0) (j := 1) (by simp) (by simp) (by omega)
        simp only [List.getD_cons_zero, List.getD_cons_succ] at hsep
        unfold sepOk at hsep
        have hall := (all_range_iff _ _).1 hsep k0 (by omega)
        rw [decide_eq_true_eq, hg0] at hall
        omega
      · exact ⟨_, rfl⟩

/-! ## Witnesses: the claim theorems applied at concrete inputs -/

theorem classifier_partition_witness :
    parseGeometry [8, 8] [(⟨"cuboid", [(5, 6), (1, 2)], "specular"⟩ : GeometryEntry)] =
      Except.ok [toBlock ⟨"cuboid", [(5, 6), (1, 2)], "specular"⟩] ∧
    ((∀ c, coveredAll [toBlock ⟨"cuboid", [(5, 6), (1, 2)], "specular"⟩] c = true ↔
        exposedBoundaryAll [toBlock ⟨"cuboid", [(5, 6), (1, 2)], "specular"⟩] c = true) ∧
     (∀ s1 ∈ classifyAll [toBlock ⟨"cuboid", [(5, 6), (1, 2)], "specular"⟩],
        ∀ s2 ∈ classifyAll [toBlock ⟨"cuboid", [(5, 6), (1, 2)], "specular"⟩],
        s1 ≠ s2 → ∀ c, ¬(covers s1 c = true ∧ covers s2 c = true))) :=
  ⟨rfl, classifier_partition [8, 8] [⟨"cuboid", [(5, 6), (1, 2)], "specular"⟩] _ rfl⟩

theorem geometry_error_iff_witness :
    parseGeometry [8, 8]
        [(⟨"cuboid", [(0, 1), (0, 1)], "specular"⟩ : GeometryEntry),
         ⟨"cuboid", [(4, 5), (4, 5)], "bounceback"⟩] =
      Except.ok [toBlock ⟨"cuboid", [(0, 1), (0, 1)], "specular"⟩,
        toBlock ⟨"cuboid", [(4, 5), (4, 5)], "bounceback"⟩] ∧
    (∃ err, parseGeometry [8, 8]
        [(⟨"cuboid", [(0, 1), (0, 1)], "specular"⟩ : GeometryEntry),
         ⟨"cuboid", [(4, 5), (0, 1)], "bounceback"⟩] = Except.error err) :=
  ⟨((geometry_error_iff [8, 8] []).2 ⟨"cuboid", [(0, 1), (0, 1)], "specular"⟩
      ⟨"cuboid", [(4, 5), (4, 5)], "bounceback"⟩ rfl rfl (by decide) (by decide)).1
      (by decide),
   ((geometry_error_iff [8, 8] []).2 ⟨"cuboid", [(0, 1), (0, 1)], "specular"⟩
      ⟨"cuboid", [(4, 5), (0, 1)], "bounceback"⟩ rfl rfl (by decide) (by decide)).2
      (by decide) (by decide)⟩

theorem shielded_face_no_circuit_witness :
    faceShielded
        [(⟨[(2, 3), (1, 4)], [(BoundaryKind.specular, BoundaryKind.specular),
            (BoundaryKind.specular, BoundaryKind.specular)]⟩ : Block),
         ⟨[(4, 7), (0, 5)], [(BoundaryKind.specular, BoundaryKind.specular),
            (BoundaryKind.specular, BoundaryKind.specular)]⟩] 0 0 true = true ∧
    ((∀ s ∈ classifyBlock
        [(⟨[(2, 3), (1, 4)], [(BoundaryKind.specular, BoundaryKind.specular),
            (BoundaryKind.specular, BoundaryKind.specular)]⟩ : Block),
         ⟨[(4, 7), (0, 5)], [(BoundaryKind.specular, BoundaryKind.specular),
            (BoundaryKind.specular, BoundaryKind.specular)]⟩] 0
        ([(⟨[(2, 3), (1, 4)], [(BoundaryKind.specular, BoundaryKind.specular),
            (BoundaryKind.specular, BoundaryKind.specular)]⟩ : Block),
          ⟨[(4, 7), (0, 5)], [(BoundaryKind.specular, BoundaryKind.specular),
            (BoundaryKind.specular, BoundaryKind.specular)]⟩].getD 0 emptyBlock), ∀ c,
        faceCell ([(⟨[(2, 3), (1, 4)], [(BoundaryKind.specular, BoundaryKind.specular),
            (BoundaryKind.specular, BoundaryKind.specular)]⟩ : Block),
          ⟨[(4, 7), (0, 5)], [(BoundaryKind.specular, BoundaryKind.specular),
            (BoundaryKind.specular, BoundaryKind.specular)]⟩].getD 0 emptyBlock)
          0 true c = true → covers s c = false) ∧
     (∀ pr ∈ boundaryCircuits ⟨["x", "y"], [8, 8], [4, 4]⟩
        [(⟨[(2, 3), (1, 4)], [(BoundaryKind.specular, BoundaryKind.specular),
            (BoundaryKind.specular, BoundaryKind.specular)]⟩ : Block),
         ⟨[(4, 7), (0, 5)], [(BoundaryKind.specular, BoundaryKind.specular),
            (BoundaryKind.specular, BoundaryKind.specular)]⟩] 0, ∀ c,
        faceCell ([(⟨[(2, 3), (1, 4)], [(BoundaryKind.specular, BoundaryKind.specular),
            (BoundaryKind.specular, BoundaryKind.specular)]⟩ : Block),
          ⟨[(4, 7), (0, 5)], [(BoundaryKind.specular, BoundaryKind.specular),
            (BoundaryKind.specular, BoundaryKind.specular)]⟩].getD 0 emptyBlock)
          0 true c = true → covers pr.1 c = false)) :=
  ⟨by decide, shielded_face_no_circuit
    [⟨[(2, 3), (1, 4)], [(BoundaryKind.specular, BoundaryKind.specular),
        (BoundaryKind.specular, BoundaryKind.specular)]⟩,
     ⟨[(4, 7), (0, 5)], [(BoundaryKind.specular, BoundaryKind.specular),
        (BoundaryKind.specular, BoundaryKind.specular)]⟩] 0 0 true
    ⟨["x", "y"], [8, 8], [4, 4]⟩ (by decide)⟩

theorem single_cuboid_boundary_combinatorics_witness :
    (2 : Nat) < 4 ∧
    ((classifyAll [(⟨[(2, 4), (2, 4), (2, 4)], []⟩ : Block)]).countP
        (fun s => kindOfPattern s.pattern == StructKind.wall) = 6 ∧
     (classifyAll [(⟨[(2, 4), (2, 4), (2, 4)], []⟩ : Block)]).countP
        (fun s => kindOfPattern s.pattern == StructKind.resetEdge) = 12 ∧
     (classifyAll [(⟨[(2, 4), (2, 4), (2, 4)], []⟩ : Block)]).countP
        (fun s => kindOfPattern s.pattern == StructKind.point) = 8 ∧
     (∀ s1 ∈ classifyAll [(⟨[(2, 4), (2, 4), (2, 4)], []⟩ : Block)],
        ∀ s2 ∈ classifyAll [(⟨[(2, 4), (2, 4), (2, 4)], []⟩ : Block)],
        s1 ≠ s2 → ∀ c, ¬(covers s1 c = true ∧ covers s2 c = true))) :=
  ⟨by decide, single_cuboid_boundary_combinatorics.2 2 4 2 4 2 4 []
    (by decide) (by decide) (by decide)⟩

theorem corner_mixed_kinds_distinct_witness :
    [(⟨[(2, 4), (6, 8)], [(BoundaryKind.specular, BoundaryKind.specular),
        (BoundaryKind.bounceback, BoundaryKind.bounceback)]⟩ : Block)].getD 0 emptyBlock =
      ⟨[(2, 4), (6, 8)], [(BoundaryKind.specular, BoundaryKind.specular),
        (BoundaryKind.bounceback, BoundaryKind.bounceback)]⟩ ∧
    (∃ s ∈ classifyAll [(⟨[(2, 4), (6, 8)],
        [(BoundaryKind.specular, BoundaryKind.specular),
         (BoundaryKind.bounceback, BoundaryKind.bounceback)]⟩ : Block)],
      kindOfPattern s.pattern = StructKind.point ∧
      covers s [sideCoord 2 4 false, sideCoord 6 8 false] = true ∧
      s.cases = [(0, false, sideKind (BoundaryKind.specular, BoundaryKind.specular) false),
        (1, false, sideKind (BoundaryKind.bounceback, BoundaryKind.bounceback) false)] ∧
      ¬(∀ cse ∈ s.cases,
          cse.2.2 = sideKind (BoundaryKind.specular, BoundaryKind.specular) false) ∧
      ¬(∀ cse ∈ s.cases,
          cse.2.2 = sideKind (BoundaryKind.bounceback, BoundaryKind.bounceback) false)) :=
  ⟨rfl, corner_mixed_kinds_distinct
    [⟨[(2, 4), (6, 8)], [(BoundaryKind.specular, BoundaryKind.specular),
        (BoundaryKind.bounceback, BoundaryKind.bounceback)]⟩] 0 2 4 6 8
    (BoundaryKind.specular, BoundaryKind.specular)
    (BoundaryKind.bounceback, BoundaryKind.bounceback) false false rfl
    (by decide) (by decide) (by decide) (by decide) (by decide) (by decide)⟩

theorem lattice_config_error_iff_witness :
    ∃ err, parseLattice ⟨[("x", 8), ("y", 8)], [("x", 4), ("z", 4)]⟩ =
      Except.error err :=
  ((lattice_config_error_iff ⟨[("x", 8), ("y", 8)], [("x", 4), ("z", 4)]⟩).1).2
    (Or.inr (Or.inr (by decide)))

theorem lattice_construction_deterministic_witness :
    parseLattice ⟨[("x", 8), ("y", 8)], [("x", 4), ("y", 4)]⟩ =
      Except.ok ⟨["x", "y"], [8, 8], [4, 4]⟩ ∧
    ((⟨["x", "y"], [8, 8], [4, 4]⟩ : Lattice) = ⟨["x", "y"], [8, 8], [4, 4]⟩ ∧
     numTotalQubits ⟨["x", "y"], [8, 8], [4, 4]⟩ =
       numTotalQubits ⟨["x", "y"], [8, 8], [4, 4]⟩ ∧
     registerSizes ⟨["x", "y"], [8, 8], [4, 4]⟩ =
       registerSizes ⟨["x", "y"], [8, 8], [4, 4]⟩ ∧
     (∀ i, gridQubitIndices ⟨["x", "y"], [8, 8], [4, 4]⟩ i =
       gridQubitIndices ⟨["x", "y"], [8, 8], [4, 4]⟩ i) ∧
     (∀ i, velQubitIndices ⟨["x", "y"], [8, 8], [4, 4]⟩ i =
       velQubitIndices ⟨["x", "y"], [8, 8], [4, 4]⟩ i) ∧
     ancillaQubitIndices ⟨["x", "y"], [8, 8], [4, 4]⟩ =
       ancillaQubitIndices ⟨["x", "y"], [8, 8], [4, 4]⟩) :=
  ⟨rfl, lattice_construction_deterministic
    ⟨[("x", 8), ("y", 8)], [("x", 4), ("y", 4)]⟩
    ⟨["x", "y"], [8, 8], [4, 4]⟩ ⟨["x", "y"], [8, 8], [4, 4]⟩ rfl rfl⟩

theorem parse_serialize_roundtrip_witness :
    parseEntry [8, 8] ⟨"cuboid", [(1, 2), (4, 5)], "bounceback"⟩ =
      Except.ok (toBlock ⟨"cuboid", [(1, 2), (4, 5)], "bounceback"⟩) ∧
    parseEntry [8, 8]
        (serializeBlock (toBlock ⟨"cuboid", [(1, 2), (4, 5)], "bounceback"⟩)) =
      Except.ok (toBlock ⟨"cuboid", [(1, 2), (4, 5)], "bounceback"⟩) :=
  ⟨rfl, parse_serialize_roundtrip [8, 8] ⟨"cuboid", [(1, 2), (4, 5)], "bounceback"⟩
    (toBlock ⟨"cuboid", [(1, 2), (4, 5)], "bounceback"⟩) rfl⟩

theorem generator_effect_free_witness :
    (runGenerator ⟨⟨["x"], [8], [4]⟩, [emptyBlock], []⟩).2.lattice =
      (⟨⟨["x"], [8], [4]⟩, [emptyBlock], []⟩ : GenState).lattice ∧
    (runGenerator ⟨⟨["x"], [8], [4]⟩, [emptyBlock], []⟩).2.blocks =
      (⟨⟨["x"], [8], [4]⟩, [emptyBlock], []⟩ : GenState).blocks ∧
    (runGenerator ⟨⟨["x"], [8], [4]⟩, [emptyBlock], []⟩).2.structures =
      (⟨⟨["x"], [8], [4]⟩, [emptyBlock], []⟩ : GenState).structures ∧
    (runGenerator ⟨⟨["x"], [8], [4]⟩, [emptyBlock], []⟩).1 =
      (runGenerator ⟨⟨["x"], [8], [4]⟩, [], []⟩).1 :=
  generator_effect_free ⟨⟨["x"], [8], [4]⟩, [emptyBlock], []⟩
    ⟨⟨["x"], [8], [4]⟩, [], []⟩ rfl rfl

theorem spacetime_discretization_and_steps_witness :
    buildSpaceTime ⟨2, 4⟩ = Except.ok ⟨(2, 4), 1⟩ ∧
    (⟨(2, 4), 1⟩ : STCircuit).steps = 1 ∧
    (2, 4) ∈ supportedSTDiscretizations :=
  ⟨rfl, (spacetime_discretization_and_steps ⟨2, 4⟩).2.1 ⟨(2, 4), 1⟩ rfl,
   (spacetime_discretization_and_steps ⟨2, 4⟩).1.1 ⟨⟨(2, 4), 1⟩, rfl⟩⟩

end Qlbm
